import Mathlib

/-
  Verification of the cache/refresh engine of OMG Premium TV.

  Strings are modelled as lists of Unicode code points (`Str := List Nat`),
  so that the character-class operations of the JavaScript source
  (`toLowerCase`, the regex `/[^\w.]/g`, `trim`) become executable
  functions on code points.  Concrete identifiers in witnesses are written
  as explicit code-point lists, with their ASCII reading in a comment.
-/

namespace OMG

/-- A JavaScript string, modelled as its list of Unicode code points. -/
abbrev Str := List Nat

/-- Membership in the JavaScript regex class `[\w.]` = `[A-Za-z0-9_.]`,
    the characters kept by `normalizeId`'s `replace(/[^\w.]/g, '')`. -/
def isWordDot (n : Nat) : Bool :=
  decide ((48 ≤ n ∧ n ≤ 57) ∨ (65 ≤ n ∧ n ≤ 90) ∨ (97 ≤ n ∧ n ≤ 122) ∨ n = 95 ∨ n = 46)

/-- Per-code-point model of JavaScript `toLowerCase` on the range the
    normalizer can keep: ASCII `A`-`Z` map to `a`-`z`, everything else is
    left unchanged (non-ASCII case mappings are removed by the
    `[^\w.]` filter that follows, so they never reach the output). -/
def jsToLower (n : Nat) : Nat :=
  if 65 ≤ n ∧ n ≤ 90 then n + 32 else n

/-- The whitespace class removed by JavaScript `String.prototype.trim`
    (space, tab through carriage return, NBSP, BOM, line/paragraph
    separators). -/
def isJsSpace (n : Nat) : Bool :=
  decide (n = 32 ∨ (9 ≤ n ∧ n ≤ 13) ∨ n = 160 ∨ n = 65279 ∨ n = 8232 ∨ n = 8233)

/-- JavaScript `String.prototype.trim`: drop leading and trailing
    whitespace. -/
def jsTrim (s : Str) : Str :=
  ((s.dropWhile isJsSpace).reverse.dropWhile isJsSpace).reverse

/-- Model of `id.toLowerCase().replace(/[^\w.]/g, '').trim()` from
    `EPGManager.normalizeId` / `CacheManager.normalizeId`. -/
def normalizeIdStr (s : Str) : Str :=
  jsTrim ((s.map jsToLower).filter isWordDot)

/-- Model of `EPGManager.normalizeId`: `id?.toLowerCase().replace(/[^\w.]/g, '').trim() || ''`.
    A `null`/`undefined` argument short-circuits to `''` via `?.` and `|| ''`;
    for a present string the `|| ''` coalescing is the identity (an empty
    result is already `''`). -/
def normalizeId (id : Option Str) : Str :=
  match id with
  | none => []
  | some s => normalizeIdStr s

/-- The `CacheManager` configuration object; only `id_suffix` is ever read
    by the functions modelled here (and only when a caller passes
    `removeSuffix = true`, which none of the verified queries do). -/
structure Config where
  id_suffix : Option Str
deriving DecidableEq

/-- Model of `CacheManager.normalizeId(id, removeSuffix = false)`: the same
    normalization, optionally stripping a configured `.suffix`. -/
def cmNormalizeId (cfg : Config) (id : Option Str) (removeSuffix : Bool) : Str :=
  let normalized := normalizeId id
  if removeSuffix then
    match cfg.id_suffix with
    | some sfx =>
      if sfx = [] then normalized
      else
        let fullSfx := 46 :: sfx
        if fullSfx.isSuffixOf normalized then
          normalized.take (normalized.length - fullSfx.length)
        else normalized
    | none => normalized
  else normalized

theorem jsToLower_not_upper (n : Nat) : ¬ (65 ≤ jsToLower n ∧ jsToLower n ≤ 90) := by
  unfold jsToLower
  split <;> omega

theorem jsToLower_idem (n : Nat) : jsToLower (jsToLower n) = jsToLower n := by
  have h := jsToLower_not_upper n
  conv_lhs => rw [jsToLower]
  rw [if_neg h]

theorem mem_of_mem_dropWhile (p : Nat → Bool) (c : Nat) :
    ∀ l : Str, c ∈ l.dropWhile p → c ∈ l := by
  intro l
  induction l with
  | nil => simp [List.dropWhile]
  | cons a l ih =>
    rw [List.dropWhile_cons]
    by_cases h : p a = true
    · rw [if_pos h]
      intro hc
      exact List.mem_cons_of_mem a (ih hc)
    · rw [if_neg h]
      exact id

theorem mem_of_mem_jsTrim {c : Nat} {s : Str} (h : c ∈ jsTrim s) : c ∈ s := by
  unfold jsTrim at h
  rw [List.mem_reverse] at h
  have h1 := mem_of_mem_dropWhile _ _ _ h
  rw [List.mem_reverse] at h1
  exact mem_of_mem_dropWhile _ _ _ h1

theorem dropWhile_eq_self_of_none (p : Nat → Bool) (l : Str)
    (h : ∀ c ∈ l, p c = false) : l.dropWhile p = l := by
  cases l with
  | nil => rfl
  | cons a l =>
    rw [List.dropWhile_cons, if_neg]
    simp [h a (List.mem_cons_self a l)]

theorem jsTrim_eq_self (l : Str) (h : ∀ c ∈ l, isJsSpace c = false) : jsTrim l = l := by
  unfold jsTrim
  rw [dropWhile_eq_self_of_none _ _ h,
      dropWhile_eq_self_of_none _ _ (fun c hc => h c (List.mem_reverse.mp hc)),
      List.reverse_reverse]

theorem wordDot_not_space {c : Nat} (h : isWordDot c = true) : isJsSpace c = false := by
  simp only [isWordDot, decide_eq_true_eq] at h
  simp only [isJsSpace, decide_eq_false_iff_not]
  omega

theorem mem_normalizeIdStr {c : Nat} {s : Str} (h : c ∈ normalizeIdStr s) :
    isWordDot c = true ∧ jsToLower c = c ∧ isJsSpace c = false := by
  unfold normalizeIdStr at h
  have h1 := mem_of_mem_jsTrim h
  rw [List.mem_filter] at h1
  obtain ⟨hmem, hword⟩ := h1
  rw [List.mem_map] at hmem
  obtain ⟨a, _, rfl⟩ := hmem
  exact ⟨hword, jsToLower_idem a, wordDot_not_space hword⟩

theorem map_eq_self_of_fix (f : Nat → Nat) :
    ∀ l : Str, (∀ c ∈ l, f c = c) → l.map f = l := by
  intro l
  induction l with
  | nil => intro _; rfl
  | cons a l ih =>
    intro h
    rw [List.map_cons, h a (List.mem_cons_self a l),
        ih (fun c hc => h c (List.mem_cons_of_mem a hc))]

theorem normalizeIdStr_idem (s : Str) :
    normalizeIdStr (normalizeIdStr s) = normalizeIdStr s := by
  have hmap : (normalizeIdStr s).map jsToLower = normalizeIdStr s :=
    map_eq_self_of_fix _ _ (fun c hc => (mem_normalizeIdStr hc).2.1)
  have hfil : (normalizeIdStr s).filter isWordDot = normalizeIdStr s :=
    List.filter_eq_self.mpr (fun c hc => (mem_normalizeIdStr hc).1)
  have htrim : jsTrim (normalizeIdStr s) = normalizeIdStr s :=
    jsTrim_eq_self _ (fun c hc => (mem_normalizeIdStr hc).2.2)
  conv_lhs => rw [normalizeIdStr]
  rw [hmap, hfil, htrim]

/-- C1: the ID normalizer is idempotent, maps absent and empty input to the
    empty string, and the `CacheManager` variant with the default
    `removeSuffix = false` agrees with the `EPGManager` normalizer for every
    configuration. -/
theorem normalizeId_idempotent_empty :
    (∀ s : Option Str, normalizeId (some (normalizeId s)) = normalizeId s)
    ∧ normalizeId none = []
    ∧ normalizeId (some []) = []
    ∧ (∀ cfg : Config, ∀ s : Option Str, cmNormalizeId cfg s false = normalizeId s) := by
  refine ⟨?_, rfl, rfl, ?_⟩
  · intro s
    cases s with
    | none => rfl
    | some s => exact normalizeIdStr_idem s
  · intro cfg s
    rfl

/-- The JavaScript falsy test on an optional string: `null`, `undefined`
    and `''` are falsy. -/
def jsFalsyStr (s : Option Str) : Bool :=
  match s with
  | none => true
  | some l => l = []

/-- The `tvg` block of a parsed channel's `streamInfo`. -/
structure Tvg where
  id : Option Str
deriving DecidableEq

/-- The `streamInfo` block of a channel record. -/
structure StreamInfo where
  tvg : Option Tvg
deriving DecidableEq

/-- A channel record produced by the external playlist transform.
    `genre` is `none` when the stored value is not an array
    (the `Array.isArray` guard in `getChannelsByGenre`). -/
structure Channel where
  id : Str
  name : Str
  genre : Option (List Str)
  streamInfo : Option StreamInfo
deriving DecidableEq

/-- Result of the external transform `loadAndTransform`. -/
structure StremioData where
  channels : List Channel
  genres : List Str
  epgUrls : List Str
deriving DecidableEq

/-- The in-memory cache object of `CacheManager`. -/
structure CacheState where
  stremioData : Option StremioData
  lastUpdated : Option Int
  updateInProgress : Bool
  m3uUrl : Option Str
  epgUrls : List Str
deriving DecidableEq

/-- The durable cache database: `channels`, `genres` and `metadata`
    tables (serialization of channel records is modelled as identity). -/
structure CacheDB where
  channels : List Channel
  genres : List Str
  lastUpdated : Option Int
  m3uUrl : Option Str
  epgUrls : Option (List Str)
deriving DecidableEq

/-- Events emitted by `CacheManager` during a rebuild. -/
inductive CMEvent where
  | cacheUpdated
  | cacheError
deriving DecidableEq

/-- Whole state of a `CacheManager` instance.  `emitted` records the
    events emitted so far, in order; `transformCalls` counts invocations
    of the external transform `loadAndTransform` (instrumentation used to
    state the single-flight property). -/
structure CMState where
  cache : CacheState
  config : Config
  db : CacheDB
  emitted : List CMEvent
  transformCalls : Nat
deriving DecidableEq

/-- The code points of the fixed routing marker string removed from a
    channel id before comparison (`t`, `v`, `|`). -/
def tvBar : Str := [116, 118, 124]

/-- Whether the pattern (first argument) begins the string (second
    argument); JavaScript-string prefix test used by `replaceFirst`. -/
def startsWithPat : Str → Str → Bool
  | [], _ => true
  | _ :: _, [] => false
  | p :: ps, c :: cs => p = c && startsWithPat ps cs

/-- JavaScript `s.replace(pat, repl)` with a string pattern: replace the
    first occurrence of `pat` in `s`, or return `s` unchanged when `pat`
    does not occur. -/
def replaceFirst (pat repl : Str) : Str → Str
  | [] => if startsWithPat pat [] then repl else []
  | c :: cs =>
    if startsWithPat pat (c :: cs) then repl ++ (c :: cs).drop pat.length
    else c :: replaceFirst pat repl cs

/-- Whether the pattern (first argument) occurs as a contiguous substring
    of the second argument; JavaScript `String.prototype.includes`. -/
def containsPat (pat : Str) : Str → Bool
  | [] => pat = []
  | c :: cs => startsWithPat pat (c :: cs) || containsPat pat cs

/-- The `?.`-chain `ch.streamInfo?.tvg?.id`. -/
def chTvgId (ch : Channel) : Option Str :=
  (ch.streamInfo.bind StreamInfo.tvg).bind Tvg.id

/-- The predicate of the first `find` in `getChannel`: the channel's
    normalized id with the first `tv|` occurrence removed, or its
    normalized tvg id, equals the normalized search id. -/
def pOne (cfg : Config) (q : Str) (ch : Channel) : Bool :=
  decide (cmNormalizeId cfg (some (replaceFirst tvBar [] ch.id)) false = q) ||
  decide (cmNormalizeId cfg (chTvgId ch) false = q)

/-- The predicate of the fallback `find` in `getChannel`: normalized name
    equals the normalized search id. -/
def pName (cfg : Config) (q : Str) (ch : Channel) : Bool :=
  decide (cmNormalizeId cfg (some ch.name) false = q)

/-- Model of `CacheManager.getChannel`: one pass over the channel list matching
    normalized stripped id or normalized tvg id, then a fallback pass
    matching normalized name. -/
def getChannel (st : CMState) (channelId : Option Str) : Option Channel :=
  match st.cache.stremioData with
  | none => none
  | some data =>
    if jsFalsyStr channelId then none
    else
      match data.channels.find? (pOne st.config (cmNormalizeId st.config channelId false)) with
      | some ch => some ch
      | none =>
        data.channels.find? (pName st.config (cmNormalizeId st.config channelId false))

/-- Model of `CacheManager.getChannelsByGenre`. -/
def getChannelsByGenre (st : CMState) (genre : Option Str) : List Channel :=
  match st.cache.stremioData with
  | none => []
  | some data =>
    if jsFalsyStr genre then []
    else
      data.channels.filter (fun ch =>
        match ch.genre with
        | none => false
        | some gs => gs.contains (genre.getD []))

/-- Model of `CacheManager.searchChannels`: empty query returns every channel,
    otherwise channels whose normalized name contains the normalized
    query as a substring. -/
def searchChannels (st : CMState) (query : Option Str) : List Channel :=
  match st.cache.stremioData with
  | none => []
  | some data =>
    if jsFalsyStr query then data.channels
    else
      let nq := cmNormalizeId st.config query false
      data.channels.filter (fun ch =>
        containsPat nq (cmNormalizeId st.config (some ch.name) false))

/-- Model of `CacheManager.saveCacheToDB`: write metadata fields that are truthy,
    then replace the channel and genre tables wholesale from the current
    snapshot, if one exists. -/
def saveCacheToDB (st : CMState) : CMState :=
  let db := st.db
  let db := match st.cache.lastUpdated with
    | some t => if t = 0 then db else { db with lastUpdated := some t }
    | none => db
  let db := match st.cache.m3uUrl with
    | some u => if u = [] then db else { db with m3uUrl := some u }
    | none => db
  let db := { db with epgUrls := some st.cache.epgUrls }
  let db := match st.cache.stremioData with
    | some data => { db with channels := data.channels, genres := data.genres }
    | none => db
  { st with db := db }

/-- The object spread `this.config = { ...this.config, ...config }`;
    the new configuration is modelled as supplying every field, so the
    spread amounts to replacement. -/
def mergeConfig (_hold hnew : Config) : Config := hnew

/-- Outcome of a `rebuildCache` call as observed by its caller. -/
inductive Outcome where
  | skipped
  | completed
  | failed
deriving DecidableEq

/-- First phase of `CacheManager.rebuildCache`, up to the suspension
    point at `await loadAndTransform`: check the single-flight flag; when
    clear, set it, merge the configuration and invoke the external
    transform (counted in `transformCalls`).  Returns `true` when the
    call proceeds to the transform, `false` when it was skipped. -/
def rebuildBegin (st : CMState) (config : Option Config) : CMState × Bool :=
  if st.cache.updateInProgress then (st, false)
  else
    ({ st with
        cache := { st.cache with updateInProgress := true },
        config := match config with
          | some c => mergeConfig st.config c
          | none => st.config,
        transformCalls := st.transformCalls + 1 }, true)

/-- Second phase of `CacheManager.rebuildCache`, after the transform
    resolves: on success replace the snapshot, persist and emit
    `cacheUpdated`; on failure clear the flag, emit `cacheError` and
    rethrow (the returned `Bool` is `true` on success). -/
def rebuildFinish (st : CMState) (m3uUrl : Option Str) (now : Int)
    (result : Except Unit StremioData) : CMState × Bool :=
  match result with
  | .ok data =>
    let st1 := { st with cache :=
      { stremioData := some data
        lastUpdated := some now
        updateInProgress := false
        m3uUrl := m3uUrl
        epgUrls := data.epgUrls } }
    let st2 := saveCacheToDB st1
    ({ st2 with emitted := st2.emitted ++ [CMEvent.cacheUpdated] }, true)
  | .error _ =>
    ({ st with
        cache := { st.cache with updateInProgress := false },
        emitted := st.emitted ++ [CMEvent.cacheError] }, false)

/-- Model of `CacheManager.rebuildCache(m3uUrl, config)`, with the resolution of
    the external transform passed in as `result`. -/
def rebuildCache (st : CMState) (m3uUrl : Option Str) (config : Option Config)
    (now : Int) (result : Except Unit StremioData) : CMState × Outcome :=
  let s1 := rebuildBegin st config
  if s1.2 then
    let s2 := rebuildFinish s1.1 m3uUrl now result
    (s2.1, if s2.2 then Outcome.completed else Outcome.failed)
  else (s1.1, Outcome.skipped)

/-- A row of the guide `programs` table (times are epoch milliseconds;
    the autoincrement surrogate key is the list position). -/
structure ProgramRow where
  channel_id : Str
  start_time : Int
  stop_time : Int
  title : Str
  description : Str
  category : Str
deriving DecidableEq

/-- State of an `EPGManager` instance: the two database tables plus the
    freshness metadata and the single-flight flag. -/
structure EPGState where
  programs : List ProgramRow
  icons : List (Str × Str)
  lastUpdate : Option Int
  isUpdating : Bool
deriving DecidableEq

/-- A `<channel>` element of the parsed XMLTV document:
    `channel.$.id` and `channel.icon?.[0]?.$?.src`. -/
structure XmlChannel where
  id : Option Str
  icon : Option Str
deriving DecidableEq

/-- A `<programme>` element after date parsing: `start`/`stop` hold the
    result of `parseEPGDate` on the raw attribute (`none` when the
    attribute is absent or unparsable), and `title`/`description`/
    `category` hold the result of the tolerant field-extraction chain
    (with its defaults already applied). -/
structure Programme where
  channel : Option Str
  start : Option Int
  stop : Option Int
  title : Str
  description : Str
  category : Str
deriving DecidableEq

/-- A parsed XMLTV document (`data.tv`): optional channel and programme
    lists. -/
structure XmlTv where
  channels : Option (List XmlChannel)
  programmes : Option (List Programme)
deriving DecidableEq

/-- Model of `INSERT OR REPLACE INTO channel_icons`: last write wins on the
    `channel_id` key. -/
def upsertIcon (icons : List (Str × Str)) (id url : Str) : List (Str × Str) :=
  if icons.any (fun p => p.1 = id) then
    icons.map (fun p => if p.1 = id then (id, url) else p)
  else icons ++ [(id, url)]

/-- The row built from a programme that passes every ingestion check. -/
def mkProgramRow (p : Programme) (s t : Int) : ProgramRow :=
  { channel_id := normalizeId p.channel
    start_time := s
    stop_time := t
    title := p.title
    description := p.description
    category := p.category }

/-- The per-programme body of the ingestion loop: skip when start or stop
    failed to parse (`!start || !stop`), skip when the programme stopped
    more than one hour before `now` or starts more than seven days after
    `now`, otherwise build the inserted row. -/
def ingestFilter (now : Int) (p : Programme) : Option ProgramRow :=
  match p.start, p.stop with
  | some s, some t =>
    if t < now - 3600000 then none
    else if s > now + 604800000 then none
    else some (mkProgramRow p s t)
  | some _, none => none
  | none, some _ => none
  | none, none => none

/-- Model of `EPGManager.processEPGInChunks`: upsert channel icons, then insert
    every programme whose start and stop parsed and whose interval is not
    entirely older than `now − 1h` nor starting after `now + 7d`.  The
    chunked iteration of the source only batches work and logging; it
    inserts exactly the same rows as this single pass. -/
def processEPGInChunks (st : EPGState) (now : Int) (data : XmlTv) : EPGState :=
  let st1 := match data.channels with
    | some chs =>
      { st with icons := chs.foldl (fun acc c =>
          match c.icon with
          | some icon =>
            if normalizeId c.id ≠ [] ∧ icon ≠ [] then
              upsertIcon acc (normalizeId c.id) icon
            else acc
          | none => acc) st.icons }
    | none => st
  match data.programmes with
  | none => st1
  | some progs =>
    { st1 with programs := st1.programs ++ progs.filterMap (ingestFilter now) }

/-- Model of `EPGManager.cleanupOldPrograms`: delete every row whose `stop_time`
    is older than one hour before `now`; returns the number of deleted
    rows. -/
def cleanupOldPrograms (st : EPGState) (now : Int) : EPGState × Nat :=
  let remaining := st.programs.filter (fun r => decide (now - 3600000 ≤ r.stop_time))
  ({ st with programs := remaining }, st.programs.length - remaining.length)

/-- One iteration of the per-URL loop in `startEPGUpdate`: a fetch/parse
    failure for a URL is caught inside `downloadAndProcessEPG` (modelled
    as `none`) and leaves the state unchanged; a success processes the
    parsed document at that URL's ingestion instant. -/
def epgStep (acc : EPGState) (r : Int × Option XmlTv) : EPGState :=
  match r.2 with
  | some xml => processEPGInChunks acc r.1 xml
  | none => acc

/-- Model of `EPGManager.startEPGUpdate(url)`.  The `urls` value is the resolution of
    `readExternalFile` together with each URL's download/parse outcome:
    `Except.error` models a throw while reading the URL list (caught by
    the outer handler before the tables are cleared), `Except.ok results`
    the normal path, which clears both tables, folds the per-URL
    outcomes, and runs the post-update cleanup at `tCleanup`.  Either
    way the `finally` block clears `isUpdating` and stamps `lastUpdate`
    with the completion instant `tDone`.  Returns `false` when the call
    was skipped by the single-flight guard. -/
def startEPGUpdate (st : EPGState) (urls : Except Unit (List (Int × Option XmlTv)))
    (tCleanup tDone : Int) : EPGState × Bool :=
  if st.isUpdating then (st, false)
  else
    match urls with
    | .error _ =>
      ({ st with isUpdating := false, lastUpdate := some tDone }, true)
    | .ok results =>
      let st1 := { st with isUpdating := true, programs := [], icons := [] }
      let st2 := results.foldl epgStep st1
      let st3 := (cleanupOldPrograms st2 tCleanup).1
      ({ st3 with isUpdating := false, lastUpdate := some tDone }, true)

/-- The predicate of the `getCurrentProgram` query:
    `channel_id = ? AND start_time <= now AND stop_time >= now`. -/
def currentMatch (nid : Str) (now : Int) (r : ProgramRow) : Prop :=
  r.channel_id = nid ∧ r.start_time ≤ now ∧ now ≤ r.stop_time

instance (nid : Str) (now : Int) (r : ProgramRow) : Decidable (currentMatch nid now r) := by
  unfold currentMatch
  infer_instance

/-- Model of `EPGManager.getCurrentProgram`: first row (`LIMIT 1`) whose interval
    contains `now` for the normalized channel id; `null` for a falsy id.
    The presentation-only `formatDateIT` formatting of the returned
    fields is out of scope; the model returns the selected row. -/
def getCurrentProgram (st : EPGState) (channelId : Option Str) (now : Int) :
    Option ProgramRow :=
  if jsFalsyStr channelId then none
  else
    (st.programs.filter (fun r => decide (currentMatch (normalizeId channelId) now r))).head?

/-- The ordering used by `ORDER BY start_time ASC`. -/
def rowLe (a b : ProgramRow) : Prop := a.start_time ≤ b.start_time

instance : DecidableRel rowLe := fun a b => by
  unfold rowLe
  infer_instance

instance : IsTotal ProgramRow rowLe :=
  ⟨fun a b => le_total a.start_time b.start_time⟩

instance : IsTrans ProgramRow rowLe :=
  ⟨fun _ _ _ hab hbc => le_trans hab hbc⟩

/-- Model of `EPGManager.getUpcomingPrograms`: rows for the normalized id with
    `start_time >= now`, ordered by ascending `start_time`, first two
    (`LIMIT 2`); `[]` for a falsy id.  As in `getCurrentProgram`, the
    `formatDateIT` presentation of the fields is out of scope. -/
def getUpcomingPrograms (st : EPGState) (channelId : Option Str) (now : Int) :
    List ProgramRow :=
  if jsFalsyStr channelId then []
  else
    ((st.programs.filter (fun r =>
        decide (r.channel_id = normalizeId channelId ∧ now ≤ r.start_time))).insertionSort
      rowLe).take 2

/-- Model of `EPGManager.needsUpdate`: `!this.lastUpdate` is the JavaScript falsy
    test (true for `null` and for the numeric timestamp `0`), after which
    the elapsed time is compared with 24 hours using `>=`. -/
def needsUpdate (st : EPGState) (now : Int) : Bool :=
  match st.lastUpdate with
  | none => true
  | some t => if t = 0 then true else decide (86400000 ≤ now - t)

theorem cmNormalizeId_false (cfg : Config) (id : Option Str) :
    cmNormalizeId cfg id false = normalizeId id := rfl

theorem pOne_config (c1 c2 : Config) : pOne c1 = pOne c2 := by
  funext q ch
  simp [pOne, cmNormalizeId_false]

theorem pName_config (c1 c2 : Config) : pName c1 = pName c2 := by
  funext q ch
  simp [pName, cmNormalizeId_false]

theorem getChannel_congr (s1 s2 : CMState)
    (h : s1.cache.stremioData = s2.cache.stremioData) (id : Option Str) :
    getChannel s1 id = getChannel s2 id := by
  unfold getChannel
  rw [h]
  rcases s2.cache.stremioData with _ | data
  · rfl
  · simp only [pOne_config s1.config s2.config, pName_config s1.config s2.config,
      cmNormalizeId_false]

theorem getChannelsByGenre_congr (s1 s2 : CMState)
    (h : s1.cache.stremioData = s2.cache.stremioData) (g : Option Str) :
    getChannelsByGenre s1 g = getChannelsByGenre s2 g := by
  unfold getChannelsByGenre
  rw [h]

theorem searchChannels_congr (s1 s2 : CMState)
    (h : s1.cache.stremioData = s2.cache.stremioData) (q : Option Str) :
    searchChannels s1 q = searchChannels s2 q := by
  unfold searchChannels
  rw [h]
  rcases s2.cache.stremioData with _ | data
  · rfl
  · simp only [cmNormalizeId_false]

/-- C2: a `rebuildCache` call that starts (flag clear) and whose external
    transform fails leaves the flag clear, emits exactly a `cacheError`
    event, propagates the failure, keeps the previous snapshot
    (`stremioData`, `lastUpdated`, `m3uUrl`) and the durable store
    untouched, and leaves every catalog query result unchanged. -/
theorem rebuildCache_failure_atomic (st : CMState)
    (h : st.cache.updateInProgress = false) (url : Option Str)
    (cfg : Option Config) (now : Int) :
    (rebuildCache st url cfg now (Except.error ())).2 = Outcome.failed
    ∧ (rebuildCache st url cfg now (Except.error ())).1.cache.updateInProgress = false
    ∧ (rebuildCache st url cfg now (Except.error ())).1.cache.stremioData
        = st.cache.stremioData
    ∧ (rebuildCache st url cfg now (Except.error ())).1.cache.lastUpdated
        = st.cache.lastUpdated
    ∧ (rebuildCache st url cfg now (Except.error ())).1.cache.m3uUrl
        = st.cache.m3uUrl
    ∧ (rebuildCache st url cfg now (Except.error ())).1.db = st.db
    ∧ (rebuildCache st url cfg now (Except.error ())).1.emitted
        = st.emitted ++ [CMEvent.cacheError]
    ∧ (∀ id, getChannel (rebuildCache st url cfg now (Except.error ())).1 id
        = getChannel st id)
    ∧ (∀ g, getChannelsByGenre (rebuildCache st url cfg now (Except.error ())).1 g
        = getChannelsByGenre st g)
    ∧ (∀ q, searchChannels (rebuildCache st url cfg now (Except.error ())).1 q
        = searchChannels st q) := by
  simp only [rebuildCache, rebuildBegin, rebuildFinish, h, Bool.false_eq_true,
    if_false, if_true]
  refine ⟨trivial, trivial, trivial, trivial, trivial, trivial, trivial, ?_, ?_, ?_⟩
  · intro id
    exact getChannel_congr _ _ rfl id
  · intro g
    exact getChannelsByGenre_congr _ _ rfl g
  · intro q
    exact searchChannels_congr _ _ rfl q

/-- C3: single-flight guard.  A `rebuildCache` call made while the flag is
    set returns the state unchanged (no transform call, no snapshot or
    durable change, no event); likewise `startEPGUpdate` while
    `isUpdating`.  For the concurrent interleaving: a first call's begin
    phase invokes the transform once and sets the flag, a second begin
    phase then skips with the state unchanged, and the first call's finish
    phase never invokes the transform again — the transform runs exactly
    once. -/
theorem single_flight_guard :
    (∀ (st : CMState) (url : Option Str) (cfg : Option Config) (now : Int)
        (res : Except Unit StremioData),
        st.cache.updateInProgress = true →
        rebuildCache st url cfg now res = (st, Outcome.skipped))
    ∧ (∀ (est : EPGState) (urls : Except Unit (List (Int × Option XmlTv)))
        (tCleanup tDone : Int),
        est.isUpdating = true →
        startEPGUpdate est urls tCleanup tDone = (est, false))
    ∧ (∀ (st : CMState) (cfg1 cfg2 : Option Config),
        st.cache.updateInProgress = false →
        (rebuildBegin st cfg1).2 = true
        ∧ (rebuildBegin st cfg1).1.transformCalls = st.transformCalls + 1
        ∧ rebuildBegin (rebuildBegin st cfg1).1 cfg2 = ((rebuildBegin st cfg1).1, false)
        ∧ ∀ (url : Option Str) (now : Int) (res : Except Unit StremioData),
            (rebuildFinish (rebuildBegin st cfg1).1 url now res).1.transformCalls
              = st.transformCalls + 1) := by
  refine ⟨?_, ?_, ?_⟩
  · intro st url cfg now res h
    simp [rebuildCache, rebuildBegin, h]
  · intro est urls tCleanup tDone h
    simp [startEPGUpdate, h]
  · intro st cfg1 cfg2 h
    refine ⟨?_, ?_, ?_, ?_⟩
    · simp [rebuildBegin, h]
    · simp [rebuildBegin, h]
    · simp [rebuildBegin, h]
    · intro url now res
      cases res with
      | ok data => simp [rebuildBegin, rebuildFinish, saveCacheToDB, h]
      | error e => simp [rebuildBegin, rebuildFinish, h]

/-- Sample configuration with no id suffix. -/
def cfg0 : Config := ⟨none⟩

/-- Sample (empty) durable cache database. -/
def db0 : CacheDB := ⟨[], [], none, none, none⟩

/-- Sample channel with id code points of `a`, name `alpha`, and
    guide-linkage (tvg) id `RAI1`. -/
def chanA : Channel :=
  ⟨[97], [97, 108, 112, 104, 97], none, some ⟨some ⟨some [82, 65, 73, 49]⟩⟩⟩

/-- Sample channel with id code points of `tv|rai1`, name `beta`, no tvg
    id. -/
def chanB : Channel :=
  ⟨[116, 118, 124, 114, 97, 105, 49], [98, 101, 116, 97], none, none⟩

/-- Sample transform output with both sample channels and one genre. -/
def data0 : StremioData := ⟨[chanA, chanB], [[110]], []⟩

/-- Sample idle manager state (flag clear, snapshot present). -/
def stIdle : CMState := ⟨⟨some data0, some 111, false, some [104], []⟩, cfg0, db0, [], 0⟩

/-- Sample busy manager state (flag set). -/
def stBusy : CMState := ⟨⟨some data0, some 111, true, some [104], []⟩, cfg0, db0, [], 0⟩

theorem rebuildCache_failure_atomic_witness :
    (rebuildCache stIdle (some [104]) none 7 (Except.error ())).2 = Outcome.failed
    ∧ (rebuildCache stIdle (some [104]) none 7 (Except.error ())).1.cache.stremioData
        = stIdle.cache.stremioData
    ∧ getChannel (rebuildCache stIdle (some [104]) none 7 (Except.error ())).1
        (some [114, 97, 105, 49])
        = getChannel stIdle (some [114, 97, 105, 49]) := by
  have h := rebuildCache_failure_atomic stIdle rfl (some [104]) none 7
  exact ⟨h.1, h.2.2.1, h.2.2.2.2.2.2.2.1 _⟩

theorem single_flight_guard_witness :
    rebuildCache stBusy none none 0 (Except.error ()) = (stBusy, Outcome.skipped)
    ∧ startEPGUpdate ⟨[], [], none, true⟩ (Except.error ()) 0 5 = (⟨[], [], none, true⟩, false)
    ∧ (rebuildBegin stIdle none).2 = true
    ∧ rebuildBegin (rebuildBegin stIdle none).1 none = ((rebuildBegin stIdle none).1, false)
    ∧ (rebuildFinish (rebuildBegin stIdle none).1 none 9 (Except.error ())).1.transformCalls
        = stIdle.transformCalls + 1 := by
  have h := single_flight_guard
  have h3 := h.2.2 stIdle none none rfl
  exact ⟨h.1 stBusy none none 0 _ rfl, h.2.1 _ _ 0 5 rfl, h3.1, h3.2.2.1,
    h3.2.2.2 none 9 (Except.error ())⟩

/-- Sample EPG state with empty tables. -/
def emptyEPG : EPGState := ⟨[], [], none, false⟩

/-- C4 counterexample: a programme whose parsed start and stop instants
    are equal (so `startTime < stopTime` fails) passes every ingestion
    check of `processEPGInChunks` and is stored; ingestion performs no
    `start < stop` validation. -/
theorem ingestion_allows_start_ge_stop :
    (processEPGInChunks emptyEPG 0 ⟨none, some [⟨some [120], some 100, some 100, [116], [], []⟩]⟩).programs
      = [⟨[120], 100, 100, [116], [], []⟩]
    ∧ ¬ ((100 : Int) < 100) := by decide

/-- C4 (amended): ingestion drops a parsed programme only when its start
    or stop is missing or when it falls outside the retention window; the
    relative order of start and stop is never checked, so any in-window
    entry — including one with start ≥ stop — is stored. -/
theorem ingestion_window_only_check (now s t : Int) (ch : Option Str)
    (ti de ca : Str) (h1 : ¬ t < now - 3600000) (h2 : ¬ s > now + 604800000) :
    (processEPGInChunks emptyEPG now
        ⟨none, some [⟨ch, some s, some t, ti, de, ca⟩]⟩).programs
      = [⟨normalizeId ch, s, t, ti, de, ca⟩] := by
  simp [processEPGInChunks, emptyEPG, ingestFilter, mkProgramRow, h1, h2]

theorem ingestion_window_only_check_witness :
    (processEPGInChunks emptyEPG 0
        ⟨none, some [⟨some [122], some 100, some 100, [], [], []⟩]⟩).programs
      = [⟨normalizeId (some [122]), 100, 100, [], [], []⟩] :=
  ingestion_window_only_check 0 100 100 (some [122]) [] [] [] (by decide) (by decide)

theorem ingestFilter_some_bounds {now : Int} {p : Programme} {r : ProgramRow}
    (h : ingestFilter now p = some r) :
    now - 3600000 ≤ r.stop_time ∧ r.start_time ≤ now + 604800000 := by
  unfold ingestFilter at h
  rcases hs : p.start with _ | s <;> rw [hs] at h
  · rcases ht : p.stop with _ | t <;> rw [ht] at h <;> simp at h
  · rcases ht : p.stop with _ | t <;> rw [ht] at h
    · simp at h
    · have h' : (if t < now - 3600000 then none
          else if s > now + 604800000 then none
          else some (mkProgramRow p s t)) = some r := h
      by_cases h1 : t < now - 3600000
      · rw [if_pos h1] at h'
        simp at h'
      · rw [if_neg h1] at h'
        by_cases h2 : s > now + 604800000
        · rw [if_pos h2] at h'
          simp at h'
        · rw [if_neg h2] at h'
          have hr := Option.some.inj h'
          subst hr
          simp only [mkProgramRow]
          omega

theorem processEPG_programs (st : EPGState) (now : Int) (data : XmlTv) :
    (processEPGInChunks st now data).programs
      = st.programs ++ (match data.programmes with
          | none => []
          | some progs => progs.filterMap (ingestFilter now)) := by
  unfold processEPGInChunks
  rcases data with ⟨chs, progs⟩
  rcases chs with _ | chs <;> rcases progs with _ | progs <;> simp

/-- C5: starting from an empty programs table, every row stored by
    `processEPGInChunks` has `stop_time` no older than one hour before
    the ingestion instant and `start_time` no later than seven days after
    it; and `cleanupOldPrograms` leaves no row whose `stop_time` is older
    than one hour before its run instant. -/
theorem retention_window_bound (st : EPGState) (h : st.programs = []) (now : Int)
    (data : XmlTv) :
    (∀ r ∈ (processEPGInChunks st now data).programs,
        now - 3600000 ≤ r.stop_time ∧ r.start_time ≤ now + 604800000)
    ∧ (∀ st2 : EPGState, ∀ r ∈ (cleanupOldPrograms st2 now).1.programs,
        now - 3600000 ≤ r.stop_time) := by
  constructor
  · intro r hr
    rw [processEPG_programs, h, List.nil_append] at hr
    rcases hp : data.programmes with _ | progs
    · rw [hp] at hr
      exact absurd hr (by simp)
    · rw [hp] at hr
      rw [List.mem_filterMap] at hr
      obtain ⟨p, _, hfp⟩ := hr
      exact ingestFilter_some_bounds hfp
  · intro st2 r hr
    simp only [cleanupOldPrograms] at hr
    rw [List.mem_filter] at hr
    exact of_decide_eq_true hr.2

theorem retention_window_bound_witness :
    (0 : Int) - 3600000 ≤ (⟨[120], 7, 9, [], [], []⟩ : ProgramRow).stop_time
    ∧ (⟨[120], 7, 9, [], [], []⟩ : ProgramRow).start_time ≤ 0 + 604800000 :=
  (retention_window_bound emptyEPG rfl 0
      ⟨none, some [⟨some [120], some 7, some 9, [], [], []⟩]⟩).1
    ⟨[120], 7, 9, [], [], []⟩ (by decide)

/-- Sample EPG state produced by ingesting a programme with no channel
    attribute: its stored `channel_id` is the empty normalized id. -/
def stEmptyChan : EPGState :=
  processEPGInChunks emptyEPG 5 ⟨none, some [⟨none, some 0, some 10, [116], [], []⟩]⟩

/-- C6 counterexample: a stored program for the empty normalized id whose
    interval contains `now` exists, yet `getCurrentProgram` with the
    empty (falsy) id string returns `null` — so the claimed iff fails. -/
theorem getCurrentProgram_empty_id_miss :
    getCurrentProgram stEmptyChan (some []) 5 = none
    ∧ ∃ p ∈ stEmptyChan.programs, currentMatch (normalizeId (some [])) 5 p := by
  decide

theorem head?_mem {α : Type} {l : List α} {a : α} (h : l.head? = some a) : a ∈ l := by
  cases l with
  | nil => exact absurd h (by simp)
  | cons b l =>
    rw [List.head?_cons] at h
    rw [← Option.some.inj h]
    exact List.mem_cons_self b l

/-- C6 (amended): for every non-empty id, `getCurrentProgram` returns a
    program exactly when some stored row for the normalized id has an
    interval containing `now`, and any returned row is such a stored row;
    for an absent or empty id it returns `null` regardless of the stored
    rows. -/
theorem getCurrentProgram_iff_nonempty (st : EPGState) (c : Nat) (cs : Str) (now : Int) :
    ((getCurrentProgram st (some (c :: cs)) now).isSome
      ↔ ∃ p ∈ st.programs, currentMatch (normalizeId (some (c :: cs))) now p)
    ∧ (∀ p, getCurrentProgram st (some (c :: cs)) now = some p →
        p ∈ st.programs ∧ currentMatch (normalizeId (some (c :: cs))) now p)
    ∧ getCurrentProgram st none now = none
    ∧ getCurrentProgram st (some []) now = none := by
  have hfalsy : jsFalsyStr (some (c :: cs)) = false := by simp [jsFalsyStr]
  refine ⟨?_, ?_, rfl, rfl⟩
  · unfold getCurrentProgram
    simp only [hfalsy, Bool.false_eq_true, if_false]
    rw [List.head?_isSome]
    constructor
    · intro hne
      rcases List.exists_mem_of_ne_nil _ hne with ⟨p, hp⟩
      rw [List.mem_filter] at hp
      exact ⟨p, hp.1, of_decide_eq_true hp.2⟩
    · rintro ⟨p, hp, hm⟩
      exact List.ne_nil_of_mem (List.mem_filter.mpr ⟨hp, decide_eq_true hm⟩)
  · intro p hp
    unfold getCurrentProgram at hp
    simp only [hfalsy, Bool.false_eq_true, if_false] at hp
    have hmem := head?_mem hp
    rw [List.mem_filter] at hmem
    exact ⟨hmem.1, of_decide_eq_true hmem.2⟩

theorem getCurrentProgram_iff_nonempty_witness :
    getCurrentProgram (⟨[⟨[120], 3, 8, [], [], []⟩], [], none, false⟩ : EPGState) none 5 = none
    ∧ ((getCurrentProgram (⟨[⟨[120], 3, 8, [], [], []⟩], [], none, false⟩ : EPGState)
          (some [120]) 5).isSome
        ↔ ∃ p ∈ (⟨[⟨[120], 3, 8, [], [], []⟩], [], none, false⟩ : EPGState).programs,
            currentMatch (normalizeId (some [120])) 5 p) :=
  ⟨(getCurrentProgram_iff_nonempty ⟨[⟨[120], 3, 8, [], [], []⟩], [], none, false⟩
      120 [] 5).2.2.1,
   (getCurrentProgram_iff_nonempty ⟨[⟨[120], 3, 8, [], [], []⟩], [], none, false⟩
      120 [] 5).1⟩

/-- C7: `getUpcomingPrograms` returns at most two rows, each for the
    normalized id with `start_time ≥ now`, in ascending `start_time`
    order. -/
theorem getUpcomingPrograms_bounded_sorted (st : EPGState) (id : Option Str)
    (now : Int) :
    (getUpcomingPrograms st id now).length ≤ 2
    ∧ (∀ p ∈ getUpcomingPrograms st id now,
        p.channel_id = normalizeId id ∧ now ≤ p.start_time)
    ∧ List.Pairwise rowLe (getUpcomingPrograms st id now) := by
  unfold getUpcomingPrograms
  by_cases h : jsFalsyStr id = true
  · rw [if_pos h]
    simp
  · rw [if_neg h]
    refine ⟨?_, ?_, ?_⟩
    · rw [List.length_take]
      omega
    · intro p hp
      have h1 := List.take_subset 2 _ hp
      rw [List.mem_insertionSort] at h1
      rw [List.mem_filter] at h1
      exact of_decide_eq_true h1.2
    · exact List.Pairwise.sublist (List.take_sublist 2 _)
        (List.sorted_insertionSort rowLe _)

/-- Sample EPG state with three rows for one channel and one for
    another. -/
def stUp : EPGState :=
  ⟨[⟨[120], 30, 40, [], [], []⟩, ⟨[120], 10, 20, [], [], []⟩,
    ⟨[120], 50, 60, [], [], []⟩, ⟨[121], 15, 25, [], [], []⟩], [], none, false⟩

theorem getUpcomingPrograms_bounded_sorted_witness :
    (getUpcomingPrograms stUp (some [120]) 12).length ≤ 2
    ∧ List.Pairwise rowLe (getUpcomingPrograms stUp (some [120]) 12) :=
  ⟨(getUpcomingPrograms_bounded_sorted stUp (some [120]) 12).1,
   (getUpcomingPrograms_bounded_sorted stUp (some [120]) 12).2.2⟩

/-- First-pass match as a proposition: stripped-id match or tvg-id
    match. -/
def passOneMatch (q : Str) (ch : Channel) : Prop :=
  normalizeId (some (replaceFirst tvBar [] ch.id)) = q ∨ normalizeId (chTvgId ch) = q

/-- Second-pass match as a proposition: normalized-name match. -/
def nameMatch (q : Str) (ch : Channel) : Prop :=
  normalizeId (some ch.name) = q

instance (q : Str) (ch : Channel) : Decidable (passOneMatch q ch) := by
  unfold passOneMatch
  infer_instance

instance (q : Str) (ch : Channel) : Decidable (nameMatch q ch) := by
  unfold nameMatch
  infer_instance

theorem pOne_iff (cfg : Config) (q : Str) (ch : Channel) :
    pOne cfg q ch = true ↔ passOneMatch q ch := by
  simp [pOne, cmNormalizeId_false, passOneMatch]

theorem pName_iff (cfg : Config) (q : Str) (ch : Channel) :
    pName cfg q ch = true ↔ nameMatch q ch := by
  simp [pName, cmNormalizeId_false, nameMatch]

/-- C8 counterexample: with the earlier channel matching only by tvg id
    and a later channel matching by exact (stripped) id, `getChannel`
    returns the earlier tvg-matching channel — an exact-id match is not
    preferred over a guide-linkage-id match. -/
theorem getChannel_tvg_beats_exact :
    getChannel stIdle (some [114, 97, 105, 49]) = some chanA
    ∧ chanB ∈ data0.channels
    ∧ normalizeId (some (replaceFirst tvBar [] chanB.id)) = normalizeIdStr [114, 97, 105, 49]
    ∧ ¬ normalizeId (some (replaceFirst tvBar [] chanA.id)) = normalizeIdStr [114, 97, 105, 49]
    ∧ normalizeId (chTvgId chanA) = normalizeIdStr [114, 97, 105, 49]
    ∧ chanA ≠ chanB := by decide

/-- C8 (amended): `getChannel` performs two passes in list order — first
    the channels whose normalized stripped id OR normalized tvg id
    matches (the first such channel wins, with no preference between the
    two match kinds), then a pass matching normalized names — and returns
    absent when no channel matches either pass. -/
theorem getChannel_two_pass (st : CMState) (data : StremioData)
    (hdata : st.cache.stremioData = some data) (c : Nat) (cs : Str) :
    (∀ ch, getChannel st (some (c :: cs)) = some ch →
        ch ∈ data.channels
        ∧ (passOneMatch (normalizeIdStr (c :: cs)) ch
            ∨ nameMatch (normalizeIdStr (c :: cs)) ch))
    ∧ ((∃ ch ∈ data.channels, passOneMatch (normalizeIdStr (c :: cs)) ch) →
        ∃ ch, getChannel st (some (c :: cs)) = some ch
          ∧ passOneMatch (normalizeIdStr (c :: cs)) ch)
    ∧ (∀ ch rest, data.channels = ch :: rest →
        passOneMatch (normalizeIdStr (c :: cs)) ch →
        getChannel st (some (c :: cs)) = some ch)
    ∧ ((∀ ch ∈ data.channels, ¬ passOneMatch (normalizeIdStr (c :: cs)) ch
          ∧ ¬ nameMatch (normalizeIdStr (c :: cs)) ch) →
        getChannel st (some (c :: cs)) = none) := by
  have hfalsy : jsFalsyStr (some (c :: cs)) = false := by simp [jsFalsyStr]
  have hred : getChannel st (some (c :: cs)) =
      match data.channels.find? (pOne st.config (normalizeIdStr (c :: cs))) with
      | some ch => some ch
      | none => data.channels.find? (pName st.config (normalizeIdStr (c :: cs))) := by
    unfold getChannel
    rw [hdata]
    simp only [hfalsy, Bool.false_eq_true, if_false]
    rfl
  refine ⟨?_, ?_, ?_, ?_⟩
  · intro ch heq
    rw [hred] at heq
    cases hfind : data.channels.find? (pOne st.config (normalizeIdStr (c :: cs))) with
    | some ch0 =>
      rw [hfind] at heq
      have heq2 : some ch0 = some ch := heq
      rw [← Option.some.inj heq2]
      exact ⟨List.mem_of_find?_eq_some hfind,
        Or.inl ((pOne_iff _ _ _).mp (List.find?_some hfind))⟩
    | none =>
      rw [hfind] at heq
      have heq2 : data.channels.find? (pName st.config (normalizeIdStr (c :: cs)))
          = some ch := heq
      exact ⟨List.mem_of_find?_eq_some heq2,
        Or.inr ((pName_iff _ _ _).mp (List.find?_some heq2))⟩
  · rintro ⟨ch, hmem, hp⟩
    cases hfind : data.channels.find? (pOne st.config (normalizeIdStr (c :: cs))) with
    | some ch0 =>
      refine ⟨ch0, ?_, (pOne_iff _ _ _).mp (List.find?_some hfind)⟩
      rw [hred, hfind]
    | none =>
      rw [List.find?_eq_none] at hfind
      exact absurd ((pOne_iff _ _ _).mpr hp) (hfind ch hmem)
  · intro ch rest hchannels hp
    rw [hred, hchannels, List.find?_cons_of_pos rest ((pOne_iff _ _ _).mpr hp)]
  · intro hall
    rw [hred]
    have h1 : data.channels.find? (pOne st.config (normalizeIdStr (c :: cs))) = none :=
      List.find?_eq_none.mpr (fun x hx hpx =>
        (hall x hx).1 ((pOne_iff _ _ _).mp hpx))
    rw [h1]
    show data.channels.find? (pName st.config (normalizeIdStr (c :: cs))) = none
    exact List.find?_eq_none.mpr (fun x hx hpx =>
      (hall x hx).2 ((pName_iff _ _ _).mp hpx))

theorem getChannel_two_pass_witness :
    getChannel stIdle (some [114, 97, 105, 49]) = some (⟨[97], [97, 108, 112, 104, 97],
      none, some ⟨some ⟨some [82, 65, 73, 49]⟩⟩⟩ : Channel) :=
  (getChannel_two_pass stIdle data0 rfl 114 [97, 105, 49]).2.2.1
    ⟨[97], [97, 108, 112, 104, 97], none, some ⟨some ⟨some [82, 65, 73, 49]⟩⟩⟩
    [chanB] (by decide) (by decide)

/-- C9 counterexample: at an elapsed time of exactly 24 hours
    (86400000 ms) since the last update, `needsUpdate` returns `true`
    (the code compares with `>=`), whereas the claim demands `false`
    there. -/
theorem needsUpdate_at_exact_24h :
    needsUpdate ⟨[], [], some 1, false⟩ 86400001 = true
    ∧ (86400001 : Int) - 1 = 86400000
    ∧ ¬ ((86400000 : Int) > 86400000) := by decide

/-- C9 (amended): `needsUpdate` returns `true` iff the store was never
    updated (a `null` — or numerically falsy `0` — timestamp) or at
    least 24 hours have elapsed since the last update; in particular at
    exactly 24 hours it returns `true`. -/
theorem needsUpdate_ge_iff (st : EPGState) (now : Int) :
    (needsUpdate st now = true
      ↔ (st.lastUpdate = none ∨ st.lastUpdate = some 0
          ∨ ∃ t, st.lastUpdate = some t ∧ 86400000 ≤ now - t))
    ∧ (∀ t : Int, needsUpdate ⟨[], [], some t, false⟩ (t + 86400000) = true) := by
  constructor
  · rcases hlu : st.lastUpdate with _ | t
    · simp [needsUpdate, hlu]
    · simp only [needsUpdate, hlu]
      by_cases h0 : t = 0
      · subst h0
        simp
      · rw [if_neg h0]
        simp only [decide_eq_true_eq]
        constructor
        · intro hle
          exact Or.inr (Or.inr ⟨t, rfl, hle⟩)
        · rintro (hc | hc | ⟨t2, ht2, hle⟩)
          · exact absurd hc (by simp)
          · exact absurd (Option.some.inj hc) h0
          · rw [Option.some.inj ht2]
            exact hle
  · intro t
    simp only [needsUpdate]
    by_cases h0 : t = 0
    · subst h0
      simp
    · rw [if_neg h0]
      simp only [decide_eq_true_eq]
      omega

theorem needsUpdate_ge_iff_witness :
    needsUpdate ⟨[], [], some 5, false⟩ (5 + 86400000) = true :=
  (needsUpdate_ge_iff ⟨[], [], some 5, false⟩ 0).2 5

theorem needsUpdate_some_lt (st2 : EPGState) (tD now : Int)
    (hlu : st2.lastUpdate = some tD) (h0 : tD ≠ 0)
    (hlt : now - tD < 86400000) : needsUpdate st2 now = false := by
  simp only [needsUpdate, hlu]
  rw [if_neg h0]
  simp only [decide_eq_false_iff_not]
  omega

theorem foldl_epgStep_none :
    ∀ (results : List (Int × Option XmlTv)) (st : EPGState),
      (∀ r ∈ results, r.2 = none) → results.foldl epgStep st = st := by
  intro results
  induction results with
  | nil => intro st _; rfl
  | cons r rs ih =>
    intro st hall
    rw [List.foldl_cons]
    have hr : epgStep st r = st := by
      unfold epgStep
      rw [hall r (List.mem_cons_self r rs)]
    rw [hr]
    exact ih st (fun x hx => hall x (List.mem_cons_of_mem r hx))

/-- C10: every `startEPGUpdate` call that is not skipped by the
    single-flight guard — including one where reading the URL list threw
    or every per-URL fetch/parse failed — ends with `lastUpdate` stamped
    at the completion instant and the flag clear, so `needsUpdate` is
    `false` for any instant less than 24 hours later; and when the URL
    list resolved but every per-URL download failed, the programs table
    was cleared and left empty. -/
theorem startEPGUpdate_always_sets_lastUpdate (st : EPGState)
    (h : st.isUpdating = false) (urls : Except Unit (List (Int × Option XmlTv)))
    (tCleanup tDone : Int) :
    (startEPGUpdate st urls tCleanup tDone).2 = true
    ∧ (startEPGUpdate st urls tCleanup tDone).1.lastUpdate = some tDone
    ∧ (startEPGUpdate st urls tCleanup tDone).1.isUpdating = false
    ∧ (∀ now : Int, tDone ≠ 0 → now - tDone < 86400000 →
        needsUpdate (startEPGUpdate st urls tCleanup tDone).1 now = false)
    ∧ (∀ results, urls = Except.ok results → (∀ r ∈ results, r.2 = none) →
        (startEPGUpdate st urls tCleanup tDone).1.programs = []) := by
  cases urls with
  | error e =>
    have hrun : startEPGUpdate st (Except.error e) tCleanup tDone
        = ({ st with isUpdating := false, lastUpdate := some tDone }, true) := by
      simp [startEPGUpdate, h]
    refine ⟨by rw [hrun], by rw [hrun], by rw [hrun], ?_, ?_⟩
    · intro now h0 hlt
      exact needsUpdate_some_lt _ tDone now (by rw [hrun]) h0 hlt
    · intro results heq hall
      exact absurd heq (by simp)
  | ok results =>
    have hrun : startEPGUpdate st (Except.ok results) tCleanup tDone
        = ({ (cleanupOldPrograms
                (results.foldl epgStep { st with isUpdating := true, programs := [], icons := [] })
                tCleanup).1 with
              isUpdating := false, lastUpdate := some tDone }, true) := by
      simp [startEPGUpdate, h]
    refine ⟨by rw [hrun], by rw [hrun], by rw [hrun], ?_, ?_⟩
    · intro now h0 hlt
      exact needsUpdate_some_lt _ tDone now (by rw [hrun]) h0 hlt
    · intro results2 heq hall
      have hres : results = results2 := by
        injection heq
      subst hres
      rw [hrun]
      show (cleanupOldPrograms
          (results.foldl epgStep { st with isUpdating := true, programs := [], icons := [] })
          tCleanup).1.programs = []
      rw [foldl_epgStep_none results _ hall]
      simp [cleanupOldPrograms]

/-- Sample EPG state for the refresh witness: one stale row, a previous
    update stamp, flag clear. -/
def stEpgW : EPGState := ⟨[⟨[120], 1, 2, [], [], []⟩], [], some 3, false⟩

theorem startEPGUpdate_always_sets_lastUpdate_witness :
    (startEPGUpdate stEpgW (Except.ok [(5, none)]) 6 1000).1.lastUpdate = some 1000
    ∧ needsUpdate (startEPGUpdate stEpgW (Except.ok [(5, none)]) 6 1000).1 2000 = false
    ∧ (startEPGUpdate stEpgW (Except.ok [(5, none)]) 6 1000).1.programs = [] := by
  have h := startEPGUpdate_always_sets_lastUpdate stEpgW rfl (Except.ok [(5, none)]) 6 1000
  exact ⟨h.2.1, h.2.2.2.1 2000 (by decide) (by decide),
    h.2.2.2.2 [(5, none)] rfl (by decide)⟩

end OMG
